import Mathlib

/-!
Verification of the Ollama-Native streaming transport core.

The definitions below are a shallow embedding of the repository's
TypeScript source (`FetchClient`, `AbortController`, `OllamaClient`,
`OllamaService`, `isValidConfig`/`isValidURL`).  Text is modelled as
lists of Unicode code points (`List Nat`), bytes as `List Nat`, and
JavaScript exceptions as `Except` values.  Platform builtins used by
the source (`JSON.parse`, `TextDecoder`, `new URL`) are embedded as
executable Lean functions implementing the corresponding standard
algorithms.
-/

/-- Code points of a Lean string, used to move from readable string
literals to the `List Nat` text representation. -/
def cps (s : String) : List Nat :=
  s.data.map Char.toNat

/-- Whitespace set of JavaScript `String.prototype.trim`
(WhiteSpace ∪ LineTerminator code points). -/
def isJsWs (c : Nat) : Bool :=
  c == 9 || c == 10 || c == 11 || c == 12 || c == 13 || c == 32 ||
  c == 160 || c == 0x1680 || (0x2000 ≤ c && c ≤ 0x200A) ||
  c == 0x2028 || c == 0x2029 || c == 0x202F || c == 0x205F ||
  c == 0x3000 || c == 0xFEFF

/-- Embedding of JavaScript `String.prototype.trim`: drop leading and
trailing whitespace code points. -/
def trimWs (cs : List Nat) : List Nat :=
  ((cs.dropWhile isJsWs).reverse.dropWhile isJsWs).reverse

/-- Check that a pattern occurs as a leading segment of a text,
both given as code-point lists. -/
def startsWithSeq : List Nat → List Nat → Bool
  | [], _ => true
  | _ :: _, [] => false
  | p :: ps, t :: ts => p == t && startsWithSeq ps ts

/-- Embedding of JavaScript `String.prototype.includes`: the pattern
occurs somewhere inside the text. -/
def containsSeq (p : List Nat) : List Nat → Bool
  | [] => startsWithSeq p []
  | t :: ts => startsWithSeq p (t :: ts) || containsSeq p ts

/-- JSON values as produced by `JSON.parse`.  Numbers are kept in
scientific form `mant * 10 ^ exp10` to stay exact. -/
inductive Json : Type where
  | null : Json
  | boolean : Bool → Json
  | num : Int → Int → Json
  | str : List Nat → Json
  | arr : List Json → Json
  | obj : List (List Nat × Json) → Json

/-- JSON insignificant whitespace (RFC 8259). -/
def jsonWs (c : Nat) : Bool :=
  c == 32 || c == 9 || c == 10 || c == 13

/-- Drop leading JSON whitespace. -/
def skipJsonWs (cs : List Nat) : List Nat :=
  cs.dropWhile jsonWs

/-- Decimal digit test on code points. -/
def isDigitCp (c : Nat) : Bool :=
  48 ≤ c && c ≤ 57

/-- Hexadecimal digit value of a code point, if any. -/
def hexVal (c : Nat) : Option Nat :=
  if 48 ≤ c && c ≤ 57 then some (c - 48)
  else if 97 ≤ c && c ≤ 102 then some (c - 87)
  else if 65 ≤ c && c ≤ 70 then some (c - 55)
  else none

/-- Value of a simple JSON string escape character, if valid. -/
def escapeChar (c : Nat) : Option Nat :=
  if c == 34 then some 34
  else if c == 92 then some 92
  else if c == 47 then some 47
  else if c == 98 then some 8
  else if c == 102 then some 12
  else if c == 110 then some 10
  else if c == 114 then some 13
  else if c == 116 then some 9
  else none

/-- Parse the body of a JSON string after the opening quote; returns
the contents and the remaining input past the closing quote. -/
def parseStringBody : List Nat → Option (List Nat × List Nat)
  | [] => none
  | 34 :: rest => some ([], rest)
  | 92 :: 117 :: a :: b :: c :: d :: rest =>
    match hexVal a, hexVal b, hexVal c, hexVal d with
    | some ha, some hb, some hc, some hd =>
      (parseStringBody rest).map
        (fun p => ((((ha * 16 + hb) * 16 + hc) * 16 + hd) :: p.1, p.2))
    | _, _, _, _ => none
  | 92 :: e :: rest =>
    match escapeChar e with
    | some c => (parseStringBody rest).map (fun p => (c :: p.1, p.2))
    | none => none
  | c :: rest =>
    if c < 32 then none
    else (parseStringBody rest).map (fun p => (c :: p.1, p.2))

/-- Numeric value of a list of decimal-digit code points. -/
def digitsToNat (ds : List Nat) : Nat :=
  ds.foldl (fun a c => a * 10 + (c - 48)) 0

/-- Parse an optional JSON exponent part and finish a number token. -/
def parseExpPart (mant : Int) (e0 : Int) (cs : List Nat) : Option (Json × List Nat) :=
  match cs with
  | c :: cs1 =>
    if c == 101 || c == 69 then
      let sgnRest : Int × List Nat :=
        match cs1 with
        | 43 :: r => (1, r)
        | 45 :: r => (-1, r)
        | _ => (1, cs1)
      let eds := sgnRest.2.takeWhile isDigitCp
      if eds = [] then none
      else some (Json.num mant (e0 + sgnRest.1 * (digitsToNat eds : Int)),
                 sgnRest.2.dropWhile isDigitCp)
    else some (Json.num mant e0, c :: cs1)
  | [] => some (Json.num mant e0, [])

/-- Parse a JSON number token (sign, integer part, fraction, exponent)
following the RFC 8259 grammar. -/
def parseNumber (cs : List Nat) : Option (Json × List Nat) :=
  let negRest : Bool × List Nat :=
    match cs with
    | 45 :: r => (true, r)
    | _ => (false, cs)
  let cs1 := negRest.2
  match cs1 with
  | [] => none
  | c :: _ =>
    if ¬ isDigitCp c then none
    else
      let ds := cs1.takeWhile isDigitCp
      let cs2 := cs1.dropWhile isDigitCp
      if 1 < ds.length ∧ ds.headD 0 = 48 then none
      else
        let intv : Int := (digitsToNat ds : Int)
        match cs2 with
        | 46 :: cs3 =>
          let fds := cs3.takeWhile isDigitCp
          let cs4 := cs3.dropWhile isDigitCp
          if fds = [] then none
          else
            let mant := intv * (10 : Int) ^ fds.length + (digitsToNat fds : Int)
            parseExpPart (if negRest.1 then -mant else mant) (-(fds.length : Int)) cs4
        | _ => parseExpPart (if negRest.1 then -intv else intv) 0 cs2

mutual

/-- Parse one JSON value; fuel bounds the recursion depth. -/
def parseValue : Nat → List Nat → Option (Json × List Nat)
  | 0, _ => none
  | f + 1, cs =>
    match skipJsonWs cs with
    | 110 :: 117 :: 108 :: 108 :: r => some (Json.null, r)
    | 116 :: 114 :: 117 :: 101 :: r => some (Json.boolean true, r)
    | 102 :: 97 :: 108 :: 115 :: 101 :: r => some (Json.boolean false, r)
    | 34 :: r => (parseStringBody r).map (fun p => (Json.str p.1, p.2))
    | 91 :: r => parseArrItems f (skipJsonWs r) []
    | 123 :: r => parseObjItems f (skipJsonWs r) []
    | cs2 => parseNumber cs2

/-- Parse the items of a JSON array after the opening bracket. -/
def parseArrItems : Nat → List Nat → List Json → Option (Json × List Nat)
  | 0, _, _ => none
  | f + 1, cs, acc =>
    match cs with
    | 93 :: r => if acc.isEmpty then some (Json.arr [], r) else none
    | _ =>
      match parseValue f cs with
      | none => none
      | some (v, r) =>
        match skipJsonWs r with
        | 44 :: r2 => parseArrItems f (skipJsonWs r2) (acc ++ [v])
        | 93 :: r2 => some (Json.arr (acc ++ [v]), r2)
        | _ => none

/-- Parse the members of a JSON object after the opening brace. -/
def parseObjItems : Nat → List Nat → List (List Nat × Json) → Option (Json × List Nat)
  | 0, _, _ => none
  | f + 1, cs, acc =>
    match cs with
    | 125 :: r => if acc.isEmpty then some (Json.obj [], r) else none
    | 34 :: r =>
      match parseStringBody r with
      | none => none
      | some (k, r2) =>
        match skipJsonWs r2 with
        | 58 :: r3 =>
          match parseValue f r3 with
          | none => none
          | some (v, r4) =>
            match skipJsonWs r4 with
            | 44 :: r5 => parseObjItems f (skipJsonWs r5) (acc ++ [(k, v)])
            | 125 :: r5 => some (Json.obj (acc ++ [(k, v)]), r5)
            | _ => none
        | _ => none
    | _ => none

end

/-- Embedding of JavaScript `JSON.parse` over code-point text: parse
one value and require only whitespace to remain. -/
def jsonParse (cs : List Nat) : Option Json :=
  match parseValue (2 * cs.length + 2) cs with
  | some (v, rest) => if skipJsonWs rest = [] then some v else none
  | none => none

example : jsonParse (cps "\x7b\"a\":1\x7d") = some (Json.obj [(cps "a", Json.num 1 0)]) := rfl
example : jsonParse (cps "not json") = none := rfl
example : jsonParse (cps "\x7b\"b\":2\x7d") = some (Json.obj [(cps "b", Json.num 2 0)]) := rfl
example : jsonParse (cps " [1, true, null] ") =
    some (Json.arr [Json.num 1 0, Json.boolean true, Json.null]) := rfl
example : trimWs (cps "  x ") = cps "x" := rfl

/-!
Embedding of `TextDecoder` (UTF-8, streaming mode): the WHATWG
byte-at-a-time decode state machine.  The state holds the partially
accumulated code point, the number of continuation bytes still
needed, and the admissible range of the next byte.
-/

/-- Decoder state of the WHATWG UTF-8 decode algorithm. -/
structure Utf8State : Type where
  codepoint : Nat
  needed : Nat
  lower : Nat
  upper : Nat
deriving DecidableEq

/-- Initial state of the UTF-8 decoder. -/
def utf8Init : Utf8State :=
  ⟨0, 0, 0x80, 0xBF⟩

/-- Process one byte from the initial (no pending sequence) state. -/
def utf8StepStart (b : Nat) : Utf8State × List Nat :=
  if b ≤ 0x7F then (utf8Init, [b])
  else if 0xC2 ≤ b && b ≤ 0xDF then (⟨b &&& 0x1F, 1, 0x80, 0xBF⟩, [])
  else if 0xE0 ≤ b && b ≤ 0xEF then
    (⟨b &&& 0xF, 2, if b == 0xE0 then 0xA0 else 0x80,
      if b == 0xED then 0x9F else 0xBF⟩, [])
  else if 0xF0 ≤ b && b ≤ 0xF4 then
    (⟨b &&& 0x7, 3, if b == 0xF0 then 0x90 else 0x80,
      if b == 0xF4 then 0x8F else 0xBF⟩, [])
  else (utf8Init, [0xFFFD])

/-- Process one byte of UTF-8 input, yielding the new state and the
code points emitted (U+FFFD on malformed input). -/
def utf8Step (s : Utf8State) (b : Nat) : Utf8State × List Nat :=
  if s.needed = 0 then utf8StepStart b
  else if s.lower ≤ b && b ≤ s.upper then
    let cp := (s.codepoint <<< 6) ||| (b &&& 0x3F)
    if s.needed = 1 then (utf8Init, [cp])
    else (⟨cp, s.needed - 1, 0x80, 0xBF⟩, [])
  else
    let r := utf8StepStart b
    (r.1, 0xFFFD :: r.2)

/-- Streaming decode of one byte chunk: run `utf8Step` over the bytes
in order, carrying the decoder state across chunk boundaries exactly
as `decoder.decode(value, ...)` does in streaming mode. -/
def decodeChunk (s : Utf8State) : List Nat → Utf8State × List Nat
  | [] => (s, [])
  | b :: bs =>
    let r := utf8Step s b
    let rest := decodeChunk r.1 bs
    (rest.1, r.2 ++ rest.2)

example : (decodeChunk utf8Init (cps "ab")).2 = [97, 98] := rfl
example : (decodeChunk utf8Init [0xC3, 0xA9]).2 = [0xE9] := rfl
example : (decodeChunk (decodeChunk utf8Init [0xC3]).1 [0xA9]).2 = [0xE9] := rfl

/-!
Line framing.  `createStreamIterator` appends each decoded text chunk
to a buffer, splits the buffer on the newline code point, emits all
complete segments and keeps the last segment as the new buffer; this
is `buffer.split('\n')` followed by `buffer = lines.pop()`.
-/

/-- Prepend a code point to the first segment of a split result. -/
def consHead (c : Nat) : List (List Nat) → List (List Nat)
  | [] => [[c]]
  | h :: t => (c :: h) :: t

/-- Embedding of `String.prototype.split('\n')` on code-point text:
always returns at least one (possibly empty) segment. -/
def splitNl : List Nat → List (List Nat)
  | [] => [[]]
  | c :: cs =>
    if c = 10 then [] :: splitNl cs
    else consHead c (splitNl cs)

example : splitNl (cps "a\nb\n") = [cps "a", cps "b", []] := rfl
example : splitNl (cps "ab") = [cps "ab"] := rfl

/-- State of the chunked line framer: decoder state, text buffer, and
lines emitted so far. -/
structure FramerState : Type where
  dec : Utf8State
  buffer : List Nat
  lines : List (List Nat)
deriving DecidableEq

/-- Process one byte chunk of the stream: decode it statefully, append
to the text buffer, split on newlines, emit the complete segments and
retain the last segment. -/
def frameStep (st : FramerState) (chunk : List Nat) : FramerState :=
  let d := decodeChunk st.dec chunk
  let pieces := splitNl (st.buffer ++ d.2)
  ⟨d.1, pieces.getLastD [], st.lines ++ pieces.dropLast⟩

/-- Lines produced by the framing layer of `createStreamIterator` for
a given chunking of the byte stream: process every chunk, then flush
the trimmed trailing buffer as a final line when it is non-blank. -/
def LineFramer.frame (chunks : List (List Nat)) : List (List Nat) :=
  let st := chunks.foldl frameStep ⟨utf8Init, [], []⟩
  if trimWs st.buffer = [] then st.lines else st.lines ++ [trimWs st.buffer]

example : LineFramer.frame [cps "a\nb", cps "c\n d "] = [cps "a", cps "bc", cps "d"] := rfl
example : LineFramer.frame [[0xC3], [0xA9, 10]] = [[0xE9]] := rfl
example : LineFramer.frame [[0xC3, 0xA9], [10]] = [[0xE9]] := rfl

/-!
Errors.  `OllamaError` carries an HTTP status and a message; other
JavaScript exceptions observed by the transport are an `AbortError`
(timeout self-fire or manual abort) or some other `Error`.
-/

/-- Embedding of the `OllamaError` class: HTTP status plus message. -/
structure OllamaErrorS : Type where
  status : Nat
  message : String
deriving DecidableEq

/-- Exceptions that the fetch layer can throw: an `OllamaError`, an
`Error` named `AbortError`, or any other `Error` (network failures
such as `TypeError`). -/
inductive JsErr : Type where
  | ollama : Nat → String → JsErr
  | abortThrown : String → JsErr
  | otherThrown : String → JsErr
deriving DecidableEq

/-- Embedding of the test `error instanceof Error && error.name ===
'AbortError'` used by `shouldRetry`. -/
def isAbortError : JsErr → Bool
  | .abortThrown _ => true
  | _ => false

/-- Embedding of `FetchClient.processStreamLines`: trim each line,
skip blank lines, parse the rest as JSON and silently skip lines that
fail to parse. -/
def processStreamLines : List (List Nat) → List Json
  | [] => []
  | line :: rest =>
    let t := trimWs line
    if t = [] then processStreamLines rest
    else
      match jsonParse t with
      | some j => j :: processStreamLines rest
      | none => processStreamLines rest

/-- Declarative contract of the stream decoder, stated from the spec
wording: parse each non-blank trimmed line as JSON and keep the
successfully parsed values in input order. -/
def streamDecoderSpec (lines : List (List Nat)) : List Json :=
  lines.filterMap (fun l =>
    if trimWs l = [] then none else jsonParse (trimWs l))

/-!
Streaming iterator (`FetchClient.createStreamIterator`).  Cancellation
is observed through `shouldAbortStream`, which reads the current
token's aborted flag; the model times cancellation by the number of
completed `reader.read()` pulls (the spec's "trigger the token before
the next pull").  Each yielded event is tagged with the value of the
aborted flag at the moment it is yielded.
-/

/-- Cancellation state of the current token after `reads` completed
pulls: `cancelAt = some k` means the token is aborted from the point
just after the k-th pull (k = 0 aborts before any pull). -/
def tokenCancelled (cancelAt : Option Nat) (reads : Nat) : Bool :=
  match cancelAt with
  | none => false
  | some k => k ≤ reads

/-- Inner yield loop of `createStreamIterator`: each parsed value is
yielded only after re-checking `shouldAbortStream`; within one chunk
the flag is constant, so either all values are yielded (tagged with
the un-cancelled flag) or none. -/
def innerYield (cancelAt : Option Nat) (reads : Nat) (items : List Json) :
    List (Json × Bool) :=
  if tokenCancelled cancelAt reads then []
  else items.map (fun j => (j, false))

/-- Final flush of `createStreamIterator`: after the read loop ends
(for any reason), a non-blank trailing buffer is trimmed and parsed,
and yielded when it is valid JSON.  The tag records the aborted flag
at that moment. -/
def streamFlush (cancelAt : Option Nat) (reads : Nat) (buf : List Nat)
    (acc : List (Json × Bool)) : List (Json × Bool) :=
  if trimWs buf = [] then acc
  else
    match jsonParse (trimWs buf) with
    | some j => acc ++ [(j, tokenCancelled cancelAt reads)]
    | none => acc

/-- Read loop of `createStreamIterator`: before each pull the aborted
flag is checked and the loop breaks when it is set; otherwise the next
chunk is decoded, framed into lines, parsed, and yielded.  When the
loop ends the trailing buffer is flushed. -/
def streamIterGo (cancelAt : Option Nat) :
    List (List Nat) → Nat → Utf8State → List Nat → List (Json × Bool) →
    List (Json × Bool)
  | [], reads, _, buf, acc => streamFlush cancelAt reads buf acc
  | c :: rest, reads, ds, buf, acc =>
    if tokenCancelled cancelAt reads then streamFlush cancelAt reads buf acc
    else
      let d := decodeChunk ds c
      let pieces := splitNl (buf ++ d.2)
      let acc2 := acc ++ innerYield cancelAt (reads + 1) (processStreamLines pieces.dropLast)
      streamIterGo cancelAt rest (reads + 1) d.1 (pieces.getLastD []) acc2

/-- Embedding of one full run of `createStreamIterator` over a chunked
byte stream, with a given cancellation point. -/
def createStreamIterator (cancelAt : Option Nat) (chunks : List (List Nat)) :
    List (Json × Bool) :=
  streamIterGo cancelAt chunks 0 utf8Init [] []

example :
    createStreamIterator none [cps "\x7b\"a\":1\x7d\n\x7b\"b\":2\x7d\n"] =
      [(Json.obj [(cps "a", Json.num 1 0)], false),
       (Json.obj [(cps "b", Json.num 2 0)], false)] := rfl
example :
    createStreamIterator (some 1) [cps "\x7b\"a\":1\x7d"] =
      [(Json.obj [(cps "a", Json.num 1 0)], true)] := rfl
example : createStreamIterator (some 0) [cps "\x7b\"a\":1\x7d\n"] = [] := rfl

/-!
Buffered requests (`FetchClient.request`, `executeRequest`,
`parseResponse`, `shouldRetry`, `waitForRetry`).
-/

/-- Relevant observable fields of a `fetch` `Response`. -/
structure HttpResponse : Type where
  ok : Bool
  status : Nat
  statusText : String
  contentLength : Option String
  contentType : Option String
  body : String
deriving DecidableEq

/-- Outcome of one `fetch(url, options)` call: a response, or a thrown
`AbortError` (abort/timeout), or another thrown error (network). -/
inductive FetchOutcome : Type where
  | resp : HttpResponse → FetchOutcome
  | abortThrow : String → FetchOutcome
  | netThrow : String → FetchOutcome

/-- Values `parseResponse` can resolve with: the implicit success
marker, a parsed JSON body, or a raw text body. -/
inductive ParsedBody : Type where
  | marker : ParsedBody
  | json : Json → ParsedBody
  | text : String → ParsedBody

/-- Embedding of `FetchClient.parseResponse`: a `content-length` of
"0" or an absent `content-type` yields the success marker; otherwise a
`content-type` containing "application/json" has the body parsed as
JSON (`response.json()` rejecting on malformed bodies) and any other
`content-type` yields the raw text; the trailing branch throws
`OllamaError(400, 'Invalid content type')`. -/
def FetchClient.parseResponse (r : HttpResponse) : Except JsErr ParsedBody :=
  if r.contentLength = some "0" ∨ r.contentType = none then .ok .marker
  else
    match r.contentType with
    | some ct =>
      if containsSeq (cps "application/json") (cps ct) then
        match jsonParse (cps r.body) with
        | some j => .ok (.json j)
        | none => .error (.otherThrown "Unexpected end of JSON input")
      else .ok (.text r.body)
    | none => .error (.ollama 400 "Invalid content type")

/-- Embedding of `FetchClient.executeRequest`: build the URL from host
and endpoint, perform the attempt, convert a non-2xx response into an
`OllamaError` whose message is built from status code and status text,
and otherwise parse the response. -/
def FetchClient.executeRequest (host endpoint : String)
    (server : String → Nat → FetchOutcome) (attempt : Nat) :
    Except JsErr ParsedBody :=
  let url := host ++ endpoint
  match server url attempt with
  | .abortThrow m => .error (.abortThrown m)
  | .netThrow m => .error (.otherThrown m)
  | .resp r =>
    if r.ok then FetchClient.parseResponse r
    else .error (.ollama r.status ("HTTP " ++ toString r.status ++ ": " ++ r.statusText))

/-- Embedding of `FetchClient.shouldRetry`: an `AbortError` is never
retried, any other failure is retried while the attempt count is below
the configured retry budget. -/
def FetchClient.shouldRetry (retries : Nat) (e : JsErr) (attempt : Nat) : Bool :=
  if isAbortError e then false else attempt < retries

/-- Embedding of `FetchClient.waitForRetry`'s backoff computation,
`Math.min(1000 * Math.pow(2, attempt), 5000)` milliseconds. -/
def retryDelay (attempt : Nat) : Nat :=
  min (1000 * 2 ^ attempt) 5000

/-- Normalization of the last observed failure performed after the
retry loop: an `OllamaError` is rethrown as-is, any other `Error` is
wrapped as status 500 with its message, and a null last error becomes
status 500 with message "Unknown error". -/
def normalizeError (last : Option JsErr) : OllamaErrorS :=
  match last with
  | some (.ollama s m) => ⟨s, m⟩
  | some (.abortThrown m) => ⟨500, "Request failed: " ++ m⟩
  | some (.otherThrown m) => ⟨500, "Request failed: " ++ m⟩
  | none => ⟨500, "Request failed: Unknown error"⟩

/-- Observable trace of one logical buffered call: number of attempts
performed, backoff delays inserted, and the final outcome. -/
structure ReqTrace (α : Type) : Type where
  attempts : Nat
  delays : List Nat
  result : Except OllamaErrorS α

/-- Retry loop of `FetchClient.request`: iterate over the remaining
attempt indices; a successful attempt returns, a failed attempt
retries after `waitForRetry` when `shouldRetry` allows it and
otherwise breaks, and after the loop the last error is normalized and
thrown.  The `break` and the post-loop `throw` are merged: at a break
the thrown error is the normalization of the error just caught. -/
def requestAttempts {α : Type} (retries : Nat) (f : Nat → Except JsErr α) :
    List Nat → Option JsErr → ReqTrace α
  | [], last => ⟨0, [], .error (normalizeError last)⟩
  | a :: rest, _ =>
    match f a with
    | .ok v => ⟨1, [], .ok v⟩
    | .error e =>
      if FetchClient.shouldRetry retries e a then
        let r := requestAttempts retries f rest (some e)
        ⟨r.attempts + 1, retryDelay a :: r.delays, r.result⟩
      else ⟨1, [], .error (normalizeError (some e))⟩

/-- Embedding of `FetchClient.request` over an abstract attempt
function: run attempts 0 through `retries`. -/
def FetchClient.request {α : Type} (retries : Nat) (f : Nat → Except JsErr α) :
    ReqTrace α :=
  requestAttempts retries f (List.range (retries + 1)) none

/-- Embedding of a full buffered call: `request` driving
`executeRequest` against an abstract server. -/
def FetchClient.requestFull (host endpoint : String) (retries : Nat)
    (server : String → Nat → FetchOutcome) : ReqTrace ParsedBody :=
  FetchClient.request retries (FetchClient.executeRequest host endpoint server)

/-!
Manual cancellation (`AbortController`, `FetchClient.abort`,
`FetchClient.isActive`).
-/

/-- State of one `AbortController`: the aborted flag of its signal and
the pending timeout handle, if any. -/
structure ControllerState : Type where
  aborted : Bool
  timeoutId : Option Nat
deriving DecidableEq

/-- Embedding of `AbortController.abort`: clear the timeout and fire
the signal. -/
def AbortController.abortCtl (c : ControllerState) : ControllerState :=
  { c with timeoutId := none, aborted := true }

/-- Mutable state of a `FetchClient`: the current controller slot. -/
structure ClientState : Type where
  currentController : Option ControllerState
deriving DecidableEq

/-- Embedding of `FetchClient.cleanupController`: clear the timeout of
the current controller, if any, and null the slot. -/
def FetchClient.cleanupController (s : ClientState) : ClientState :=
  match s.currentController with
  | some _ => ⟨none⟩
  | none => s

/-- Embedding of the `FetchClient.isActive` getter. -/
def FetchClient.isActive (s : ClientState) : Bool :=
  s.currentController.isSome

/-- Embedding of `FetchClient.abort`: when a controller is current,
abort it, clean up, and report true; otherwise report false. -/
def FetchClient.abort (s : ClientState) : Bool × ClientState :=
  match s.currentController with
  | some c =>
    (true, FetchClient.cleanupController ⟨some (AbortController.abortCtl c)⟩)
  | none => (false, s)

/-!
Configuration validation (`isValidConfig`, `isValidURL`) and the
`OllamaService` constructor.
-/

/-- Embedding of the `OllamaConfig` input shape.  The numeric fields
are `Int` so that the range checks of the validator are meaningful;
the `typeof` guards of the source are vacuous in the typed model. -/
structure OllamaConfig : Type where
  host : String
  timeout : Option Int := none
  retries : Option Int := none
  headers : Option (List (String × String)) := none

/-- ASCII letter test on code points. -/
def isAsciiAlpha (c : Nat) : Bool :=
  (65 ≤ c && c ≤ 90) || (97 ≤ c && c ≤ 122)

/-- Split a code-point list at the first occurrence of "://",
returning the scheme and the remainder. -/
def splitScheme : List Nat → Option (List Nat × List Nat)
  | [] => none
  | 58 :: 47 :: 47 :: rest => some ([], rest)
  | c :: cs => (splitScheme cs).map (fun p => (c :: p.1, p.2))

/-- Split an authority component at its last colon into host and
optional port text. -/
def splitLastColon (cs : List Nat) : List Nat × Option (List Nat) :=
  if 58 ∈ cs then
    let rev := cs.reverse
    let portRev := rev.takeWhile (fun c => c ≠ 58)
    ((rev.drop (portRev.length + 1)).reverse, some portRev.reverse)
  else (cs, none)

/-- Components of a parsed URL needed by the validator. -/
structure URLParts : Type where
  scheme : List Nat
  hostname : List Nat
  port : Option Nat

/-- Embedding of the `new URL(url)` constructor, restricted to the
scheme://host:port shape the validator inspects: an alphabetic scheme
followed by "://", a non-empty host, and an optional all-digit port of
at most 65535; anything else throws (returns `none`). -/
def parseURL (cs : List Nat) : Option URLParts :=
  match splitScheme cs with
  | none => none
  | some (scheme, rest) =>
    if scheme = [] ∨ ¬ scheme.all isAsciiAlpha then none
    else
      let auth := rest.takeWhile (fun c => c ≠ 47 && c ≠ 63 && c ≠ 35)
      let hp := splitLastColon auth
      if hp.1 = [] then none
      else
        match hp.2 with
        | none => some ⟨scheme, hp.1, none⟩
        | some [] => some ⟨scheme, hp.1, none⟩
        | some ds =>
          if ds.all isDigitCp then
            if digitsToNat ds ≤ 65535 then some ⟨scheme, hp.1, some (digitsToNat ds)⟩
            else none
          else none

/-- Embedding of `isValidURL`: the URL parses, its protocol is http or
https, its hostname is non-empty, the raw string does not end in a
colon, and an explicit port lies in 1..65535. -/
def isValidURL (url : String) : Bool :=
  let cs := cps url
  if url = "" then false
  else
    match parseURL cs with
    | none => false
    | some u =>
      if ¬ (u.scheme = cps "http" ∨ u.scheme = cps "https") then false
      else if u.hostname = [] then false
      else if cs.getLastD 0 = 58 then false
      else
        match u.port with
        | some p => if p < 1 ∨ 65535 < p then false else true
        | none => true

example : isValidURL "http://localhost:11434" = true := rfl
example : isValidURL "notaurl" = false := rfl
example : isValidURL "ftp://x" = false := rfl
example : isValidURL "http://h:" = false := rfl

/-- Retries clause of `isValidConfig` (the headers clause never fires
in the typed model, where headers are always an object). -/
def isValidConfigRetries (c : OllamaConfig) : Except OllamaErrorS Bool :=
  match c.retries with
  | some r =>
    if r < 0 then .error ⟨400, "Invalid retries: must be a non-negative number"⟩
    else .ok true
  | none => .ok true

/-- Embedding of the throwing `isValidConfig`: reject an empty host, a
host that is not a valid http/https URL, a timeout outside 1000 to
86400000 milliseconds, or negative retries; otherwise return true. -/
def isValidConfig (c : OllamaConfig) : Except OllamaErrorS Bool :=
  if c.host = "" then .error ⟨400, "Invalid host: must be a non-empty string"⟩
  else if isValidURL c.host = false then
    .error ⟨400, "Invalid host URL: must be a valid HTTP/HTTPS URL"⟩
  else
    match c.timeout with
    | some t =>
      if t < 1000 ∨ 86400000 < t then
        .error ⟨400,
          "Invalid timeout: must be between 1000 and 86400000 milliseconds (1 second to 1 day)"⟩
      else isValidConfigRetries c
    | none => isValidConfigRetries c

/-- Resolved `FetchClient` configuration: the constructor applies the
defaults `timeout ?? 30000` and `retries ?? 1`. -/
structure ResolvedConfig : Type where
  host : String
  timeout : Int
  retries : Int

/-- Embedding of the `FetchClient` constructor's default application. -/
def FetchClient.mkConfig (c : OllamaConfig) : ResolvedConfig :=
  ⟨c.host, c.timeout.getD 30000, c.retries.getD 1⟩

/-- Embedding of the `OllamaService` constructor: validate the
configuration, then build the client; no network request is issued. -/
def OllamaService.init (c : OllamaConfig) : Except OllamaErrorS ResolvedConfig :=
  match isValidConfig c with
  | .error e => .error e
  | .ok _ => .ok (FetchClient.mkConfig c)

/-!
Buffered chat and generate (`OllamaClient.chat`,
`OllamaClient.generate`): open a stream with the payload's stream
field forced to false and consume it until the first chunk with
`done: true`.
-/

/-- Caller request payload for chat/generate: the stream flag plus the
remaining fields, kept abstract. -/
structure GenRequest (π : Type) : Type where
  payload : π
  stream : Option Bool := none

/-- One decoded chunk of a chat/generate stream: the done flag plus
the remaining fields, kept abstract. -/
structure GenChunk (κ : Type) : Type where
  done : Bool
  content : κ

/-- Modelled from the spec: `errorHandler`, whose implementation is
not under src (only its callers are), surfaces the failure to the
caller as a single thrown error ("callers receive either a resolved
value/sequence or a single thrown error per logical call"). -/
def errorHandler {α : Type} (message context : String) : Except OllamaErrorS α :=
  .error ⟨500, context ++ " " ++ message⟩

/-- Consumption loop shared by `chat` and `generate`: remember the
last chunk seen and stop at the first chunk whose done flag is set. -/
def consumeUntilDone {κ : Type} : List (GenChunk κ) → Option (GenChunk κ) →
    Option (GenChunk κ)
  | [], last => last
  | c :: rest, _ => if c.done then some c else consumeUntilDone rest (some c)

/-- Embedding of `OllamaClient.chat`: post to the chat endpoint with
`stream: false`, consume until the first done chunk, and raise through
`errorHandler` when the stream yielded no chunk at all. -/
def OllamaClient.chat {π κ : Type} (req : GenRequest π)
    (stream : List (GenChunk κ)) :
    (String × GenRequest π) × Except OllamaErrorS (GenChunk κ) :=
  (("/api/chat", { req with stream := some false }),
   match consumeUntilDone stream none with
   | none => errorHandler "No response received from Ollama server" "OllamaClient.chat()"
   | some c => .ok c)

/-- Embedding of `OllamaClient.generate`: post to the generate
endpoint with `stream: false`, consume until the first done chunk, and
raise through `errorHandler` when the stream yielded no chunk. -/
def OllamaClient.generate {π κ : Type} (req : GenRequest π)
    (stream : List (GenChunk κ)) :
    (String × GenRequest π) × Except OllamaErrorS (GenChunk κ) :=
  (("/api/generate", { req with stream := some false }),
   match consumeUntilDone stream none with
   | none => errorHandler "No response received from Ollama server" "OllamaClient.generate()"
   | some c => .ok c)

/-!
Helper lemmas about the retry loop.
-/

theorem requestAttempts_cons_ok {α : Type} {retries : Nat} {f : Nat → Except JsErr α}
    {a : Nat} {rest : List Nat} {last : Option JsErr} {v : α} (h : f a = .ok v) :
    requestAttempts retries f (a :: rest) last = ⟨1, [], .ok v⟩ := by
  simp [requestAttempts, h]

theorem requestAttempts_cons_retry {α : Type} {retries : Nat} {f : Nat → Except JsErr α}
    {a : Nat} {rest : List Nat} {last : Option JsErr} {e : JsErr}
    (h : f a = .error e) (hr : FetchClient.shouldRetry retries e a = true) :
    requestAttempts retries f (a :: rest) last =
      ⟨(requestAttempts retries f rest (some e)).attempts + 1,
       retryDelay a :: (requestAttempts retries f rest (some e)).delays,
       (requestAttempts retries f rest (some e)).result⟩ := by
  simp [requestAttempts, h, hr]

theorem requestAttempts_cons_stop {α : Type} {retries : Nat} {f : Nat → Except JsErr α}
    {a : Nat} {rest : List Nat} {last : Option JsErr} {e : JsErr}
    (h : f a = .error e) (hr : FetchClient.shouldRetry retries e a = false) :
    requestAttempts retries f (a :: rest) last =
      ⟨1, [], .error (normalizeError (some e))⟩ := by
  simp [requestAttempts, h, hr]

theorem requestAttempts_attempts_pos {α : Type} {retries : Nat} {f : Nat → Except JsErr α}
    {a : Nat} {rest : List Nat} {last : Option JsErr} :
    1 ≤ (requestAttempts retries f (a :: rest) last).attempts := by
  cases h : f a with
  | ok v => rw [requestAttempts_cons_ok h]
  | error e =>
    cases hr : FetchClient.shouldRetry retries e a with
    | true => rw [requestAttempts_cons_retry h hr]; exact Nat.le_add_left 1 _
    | false => rw [requestAttempts_cons_stop h hr]

/-- Behaviour of the retry loop when every attempt from index `a`
through `retries` fails with a non-abort error: all remaining attempts
run, each retry is preceded by its backoff delay, and the loop ends by
normalizing the error of the final attempt. -/
theorem requestAttempts_all_fail {α : Type} (retries : Nat) (f : Nat → Except JsErr α)
    (e : Nat → JsErr) (hab : ∀ i, isAbortError (e i) = false) :
    ∀ (n a : Nat) (last : Option JsErr), 1 ≤ n → a + n = retries + 1 →
      (∀ i, a ≤ i → i ≤ retries → f i = .error (e i)) →
      requestAttempts retries f (List.range' a n) last =
        ⟨n, (List.range' a (n - 1)).map retryDelay,
         .error (normalizeError (some (e retries)))⟩ := by
  intro n
  induction n with
  | zero => omega
  | succ m ih =>
    intro a last _ htot hf
    have ha : a ≤ retries := by omega
    have hfa : f a = .error (e a) := hf a le_rfl ha
    rw [List.range'_succ]
    cases m with
    | zero =>
      have haeq : a = retries := by omega
      have hstop : FetchClient.shouldRetry retries (e a) a = false := by
        simp [FetchClient.shouldRetry, hab, haeq]
      rw [requestAttempts_cons_stop hfa hstop, haeq]
      simp
    | succ m2 =>
      have hlt : a < retries := by omega
      have hret : FetchClient.shouldRetry retries (e a) a = true := by
        simp [FetchClient.shouldRetry, hab, hlt]
      rw [requestAttempts_cons_retry hfa hret]
      rw [ih (a + 1) (some (e a)) (by omega) (by omega)
        (fun i h1 h2 => hf i (by omega) h2)]
      simp [List.range'_succ]

/-- Skipping a block of non-abort failures: the attempt count of the
loop from attempt `a` is `k` plus the count of the loop from attempt
`a + k`, provided the first `k` attempts fail retryably. -/
theorem requestAttempts_skip {α : Type} (retries : Nat) (f : Nat → Except JsErr α) :
    ∀ (k a n : Nat) (last : Option JsErr), k ≤ n → a + k ≤ retries →
      (∀ i, i < k → ∃ e2, f (a + i) = .error e2 ∧ isAbortError e2 = false) →
      ∃ last2,
        (requestAttempts retries f (List.range' a (n + 1)) last).attempts =
          (requestAttempts retries f (List.range' (a + k) (n + 1 - k)) last2).attempts + k := by
  intro k
  induction k with
  | zero => intro a n last _ _ _; exact ⟨last, by simp⟩
  | succ m ih =>
    intro a n last hkn hak hfail
    obtain ⟨e2, hfe, habe⟩ := hfail 0 (Nat.succ_pos m)
    rw [Nat.add_zero] at hfe
    have hlt : a < retries := by omega
    have hret : FetchClient.shouldRetry retries e2 a = true := by
      simp [FetchClient.shouldRetry, habe, hlt]
    cases n with
    | zero => omega
    | succ n2 =>
      rw [List.range'_succ, requestAttempts_cons_retry hfe hret]
      obtain ⟨last2, hrec⟩ := ih (a + 1) n2 (some e2) (by omega) (by omega)
        (fun i hi => by
          have := hfail (i + 1) (by omega)
          simpa [Nat.add_comm, Nat.add_assoc, Nat.add_left_comm] using this)
      refine ⟨last2, ?_⟩
      have e1 : n2 + 1 + 1 - (m + 1) = n2 + 1 - m := by omega
      have e2 : a + (m + 1) = a + 1 + m := by omega
      rw [e1, e2]
      simp only []
      omega

/-- C5: the stream decoder parses each non-blank trimmed line as
JSON, silently drops every line that fails to parse, and yields the
parsed values in input order; feeding the three-line example yields
exactly the objects for a and b, in that order. -/
theorem claim_C5_stream_decoder_drops_malformed :
    (∀ lines : List (List Nat), processStreamLines lines = streamDecoderSpec lines) ∧
    processStreamLines [cps "\x7b\"a\":1\x7d", cps "not json", cps "\x7b\"b\":2\x7d"] =
      [Json.obj [(cps "a", Json.num 1 0)], Json.obj [(cps "b", Json.num 2 0)]] := by
  constructor
  · intro lines
    induction lines with
    | nil => rfl
    | cons l rest ih =>
      simp only [processStreamLines, streamDecoderSpec, List.filterMap_cons]
      by_cases h : trimWs l = []
      · simpa [h] using ih
      · cases hj : jsonParse (trimWs l) with
        | some j => simpa [h, hj] using ih
        | none => simpa [h, hj] using ih
  · rfl

/-- C6: the backoff before re-attempting after failed attempt `n`
is `min(1000 * 2 ^ n, 5000)` milliseconds, giving 1000, 2000, 4000 and
then 5000 for every later attempt, and the retry loop inserts exactly
this delay before the next attempt. -/
theorem claim_C6_backoff_delay :
    (∀ n : Nat, retryDelay n = min (1000 * 2 ^ n) 5000) ∧
    retryDelay 0 = 1000 ∧ retryDelay 1 = 2000 ∧ retryDelay 2 = 4000 ∧
    (∀ n : Nat, 3 ≤ n → retryDelay n = 5000) ∧
    (∀ (retries : Nat) (f : Nat → Except JsErr ParsedBody) (a : Nat)
       (rest : List Nat) (last : Option JsErr) (e : JsErr),
       f a = .error e → FetchClient.shouldRetry retries e a = true →
       (requestAttempts retries f (a :: rest) last).delays =
         retryDelay a :: (requestAttempts retries f rest (some e)).delays) := by
  refine ⟨fun n => rfl, rfl, rfl, rfl, fun n hn => ?_, fun retries f a rest last e hf hr => ?_⟩
  · have h8 : 2 ^ 3 ≤ 2 ^ n := Nat.pow_le_pow_right (by omega) hn
    have : 8000 ≤ 1000 * 2 ^ n := by
      have : (8 : Nat) ≤ 2 ^ n := by simpa using h8
      omega
    simp only [retryDelay]
    omega
  · rw [requestAttempts_cons_retry hf hr]

/-- Witness for C6 at attempt index 4 and a concrete failing loop. -/
theorem claim_C6_backoff_delay_witness :
    retryDelay 4 = 5000 ∧
    (requestAttempts 2 (fun _ => (.error (.ollama 500 "x") : Except JsErr ParsedBody))
        (0 :: [1, 2]) none).delays =
      retryDelay 0 ::
        (requestAttempts 2 (fun _ => (.error (.ollama 500 "x") : Except JsErr ParsedBody))
          [1, 2] (some (.ollama 500 "x"))).delays :=
  ⟨claim_C6_backoff_delay.2.2.2.2.1 4 (by omega),
   claim_C6_backoff_delay.2.2.2.2.2 2 _ 0 [1, 2] none (.ollama 500 "x") rfl (by decide)⟩

/-- C3: a failed attempt is retried only when the attempt count has
not reached the retry budget and the failure is not a cancellation: an
`AbortError` at attempt `k` ends the call after exactly `k + 1`
attempts regardless of remaining budget, any other failure below the
budget is followed by at least one further attempt, and any failure at
the last budgeted attempt ends the call. -/
theorem claim_C3_retry_eligibility :
    ∀ (retries : Nat) (f : Nat → Except JsErr ParsedBody) (k : Nat) (e : JsErr),
      k ≤ retries →
      (∀ i, i < k → ∃ e2, f i = .error e2 ∧ isAbortError e2 = false) →
      f k = .error e →
      ((isAbortError e = true → (FetchClient.request retries f).attempts = k + 1) ∧
       (isAbortError e = false → k < retries →
         k + 2 ≤ (FetchClient.request retries f).attempts) ∧
       (isAbortError e = false → k = retries →
         (FetchClient.request retries f).attempts = k + 1)) := by
  intro retries f k e hk hpre hfk
  obtain ⟨last2, hskip⟩ := requestAttempts_skip retries f k 0 retries none hk
    (by omega) (fun i hi => by simpa using hpre i hi)
  rw [show (0 : Nat) + k = k from by omega] at hskip
  have hsplit : retries + 1 - k = (retries - k) + 1 := by omega
  rw [hsplit, List.range'_succ] at hskip
  have hreq : (FetchClient.request retries f).attempts =
      (requestAttempts retries f (k :: List.range' (k + 1) (retries - k)) last2).attempts + k := by
    rw [FetchClient.request, List.range_eq_range']
    exact hskip
  refine ⟨?_, ?_, ?_⟩
  · intro habort
    have hstop : FetchClient.shouldRetry retries e k = false := by
      simp [FetchClient.shouldRetry, habort]
    rw [hreq, requestAttempts_cons_stop hfk hstop]
    simp only []
    omega
  · intro habort hlt
    have hret : FetchClient.shouldRetry retries e k = true := by
      simp [FetchClient.shouldRetry, habort, hlt]
    rw [hreq, requestAttempts_cons_retry hfk hret]
    have hne : retries - k = (retries - k - 1) + 1 := by omega
    rw [hne, List.range'_succ]
    have := @requestAttempts_attempts_pos ParsedBody retries f (k + 1)
      (List.range' (k + 1 + 1) (retries - k - 1)) (some e)
    simp only []
    omega
  · intro habort hke
    have hstop : FetchClient.shouldRetry retries e k = false := by
      simp [FetchClient.shouldRetry, habort, hke]
    rw [hreq, requestAttempts_cons_stop hfk hstop]
    simp only []
    omega

/-- Witness for C3: a first attempt failing with an `AbortError` under
budget 2 ends the call after exactly one attempt. -/
theorem claim_C3_retry_eligibility_witness :
    (FetchClient.request 2
      (fun _ => (.error (.abortThrown "This operation was aborted") :
        Except JsErr ParsedBody))).attempts = 0 + 1 :=
  (claim_C3_retry_eligibility 2 _ 0 (.abortThrown "This operation was aborted")
    (by omega) (fun i hi => absurd hi (by omega)) rfl).1 rfl

/-- C1 (amended): when every attempt of a buffered call fails with a
non-2xx HTTP status, exactly `retries + 1` attempts are made with the
backoff delays inserted between them, and the single surfaced error
carries the last observed status together with a message built from
that status code and status text (the message does not name the
endpoint); a run whose attempts all fail without an HTTP status is
normalized to status 500. -/
theorem claim_C1_amended_exhausted_retries :
    (∀ (host endpoint : String) (retries : Nat) (server : String → Nat → FetchOutcome)
       (r : Nat → HttpResponse),
       (∀ n, n ≤ retries → server (host ++ endpoint) n = .resp (r n)) →
       (∀ n, n ≤ retries → (r n).ok = false) →
       (FetchClient.requestFull host endpoint retries server).attempts = retries + 1 ∧
       (FetchClient.requestFull host endpoint retries server).result =
         .error ⟨(r retries).status,
           "HTTP " ++ toString (r retries).status ++ ": " ++ (r retries).statusText⟩ ∧
       (FetchClient.requestFull host endpoint retries server).delays =
         (List.range retries).map retryDelay) ∧
    (∀ (host endpoint : String) (retries : Nat) (server : String → Nat → FetchOutcome)
       (m : Nat → String),
       (∀ n, n ≤ retries → server (host ++ endpoint) n = .netThrow (m n)) →
       (FetchClient.requestFull host endpoint retries server).result =
         .error ⟨500, "Request failed: " ++ m retries⟩) := by
  constructor
  · intro host endpoint retries server r hs ho
    have hall := requestAttempts_all_fail retries
      (FetchClient.executeRequest host endpoint server)
      (fun n => .ollama (r n).status
        ("HTTP " ++ toString (r n).status ++ ": " ++ (r n).statusText))
      (fun i => rfl) (retries + 1) 0 none (by omega) (by omega)
      (fun i _ hi => by
        simp [FetchClient.executeRequest, hs i hi, ho i hi])
    rw [FetchClient.requestFull, FetchClient.request, List.range_eq_range', hall]
    refine ⟨rfl, rfl, ?_⟩
    simp [List.range_eq_range']
  · intro host endpoint retries server m hs
    have hall := requestAttempts_all_fail retries
      (FetchClient.executeRequest host endpoint server)
      (fun n => .otherThrown (m n))
      (fun i => rfl) (retries + 1) 0 none (by omega) (by omega)
      (fun i _ hi => by simp [FetchClient.executeRequest, hs i hi])
    rw [FetchClient.requestFull, FetchClient.request, List.range_eq_range', hall]
    rfl

/-- Witness for C1: with budget 2 against a server that always
answers HTTP 500, exactly 3 attempts are made and the surfaced error
carries status 500. -/
theorem claim_C1_amended_exhausted_retries_witness :
    (FetchClient.requestFull "http://localhost:11434" "/api/chat" 2
        (fun _ _ => .resp ⟨false, 500, "Internal Server Error", none, none, ""⟩)).attempts =
      2 + 1 ∧
    (FetchClient.requestFull "http://localhost:11434" "/api/chat" 2
        (fun _ _ => .resp ⟨false, 500, "Internal Server Error", none, none, ""⟩)).result =
      .error ⟨500, "HTTP 500: Internal Server Error"⟩ :=
  have h := claim_C1_amended_exhausted_retries.1 "http://localhost:11434" "/api/chat" 2
    (fun _ _ => .resp ⟨false, 500, "Internal Server Error", none, none, ""⟩)
    (fun _ => ⟨false, 500, "Internal Server Error", none, none, ""⟩)
    (fun _ _ => rfl) (fun _ _ => rfl)
  ⟨h.1, h.2.1⟩

/-- C1 (counterexample): in the always-HTTP-500 scenario with budget
2, the claimed attempt count and status hold, but the surfaced
message, built only from status code and status text, does not name
the originating endpoint "/api/chat" — refuting the claim's message
clause. -/
theorem claim_C1_counterexample_no_endpoint_in_message :
    (FetchClient.requestFull "http://localhost:11434" "/api/chat" 2
        (fun _ _ => .resp ⟨false, 500, "Internal Server Error", none, none, ""⟩)).attempts = 3 ∧
    (FetchClient.requestFull "http://localhost:11434" "/api/chat" 2
        (fun _ _ => .resp ⟨false, 500, "Internal Server Error", none, none, ""⟩)).result =
      .error ⟨500, "HTTP 500: Internal Server Error"⟩ ∧
    containsSeq (cps "/api/chat") (cps "HTTP 500: Internal Server Error") = false := by
  exact ⟨rfl, rfl, by decide⟩

/-!
Helper lemmas about the streaming iterator's cancellation behaviour.
-/

theorem innerYield_all (cancelAt : Option Nat) (reads : Nat) (items : List Json) :
    (innerYield cancelAt reads items).all (fun ev => !ev.2) = true := by
  unfold innerYield
  split
  · rfl
  · simp [List.all_eq_true]

theorem streamFlush_inv {cancelAt : Option Nat} {reads : Nat} {buf : List Nat}
    {acc : List (Json × Bool)} (hacc : acc.all (fun ev => !ev.2) = true) :
    ((streamFlush cancelAt reads buf acc).dropLast).all (fun ev => !ev.2) = true ∧
    (streamFlush cancelAt reads buf acc).countP (fun ev => ev.2) ≤ 1 := by
  have hzero : acc.countP (fun ev => ev.2) = 0 := by
    rw [List.countP_eq_zero]
    intro a ha
    have := List.all_eq_true.mp hacc a ha
    simpa using this
  have hdrop : (acc.dropLast).all (fun ev => !ev.2) = true := by
    rw [List.all_eq_true] at hacc ⊢
    exact fun a ha => hacc a ((List.dropLast_sublist acc).subset ha)
  unfold streamFlush
  split
  · exact ⟨hdrop, by omega⟩
  · split
    · rename_i j hj
      refine ⟨?_, ?_⟩
      · simpa [List.dropLast_concat] using hacc
      · rw [List.countP_append]
        have h1 : List.countP (fun ev => ev.2)
            [(j, tokenCancelled cancelAt reads)] ≤ 1 := by
          cases h : tokenCancelled cancelAt reads <;> simp [List.countP_cons, h]
        omega
    · exact ⟨hdrop, by omega⟩

theorem streamIterGo_inv (cancelAt : Option Nat) :
    ∀ (chunks : List (List Nat)) (reads : Nat) (ds : Utf8State) (buf : List Nat)
      (acc : List (Json × Bool)), acc.all (fun ev => !ev.2) = true →
      ((streamIterGo cancelAt chunks reads ds buf acc).dropLast).all
          (fun ev => !ev.2) = true ∧
      (streamIterGo cancelAt chunks reads ds buf acc).countP (fun ev => ev.2) ≤ 1 := by
  intro chunks
  induction chunks with
  | nil => intro reads ds buf acc hacc; exact streamFlush_inv hacc
  | cons c rest ih =>
    intro reads ds buf acc hacc
    rw [streamIterGo]
    split
    · exact streamFlush_inv hacc
    · refine ih _ _ _ _ ?_
      simp only [List.all_append, Bool.and_eq_true]
      exact ⟨hacc, innerYield_all _ _ _⟩

/-- C2 (amended): once cancellation is signalled on the current
token, the read loop pulls no further chunks and yields no further
events and the iteration ends without error; the only event that can
still be yielded after cancellation is the single final flush of a
non-blank parseable trailing buffer, so every event except possibly
the last is yielded with the token un-cancelled and at most one event
is yielded after cancellation. -/
theorem claim_C2_amended_cancellation_stops_stream :
    ∀ (cancelAt : Option Nat) (chunks : List (List Nat)),
      ((createStreamIterator cancelAt chunks).dropLast).all (fun ev => !ev.2) = true ∧
      (createStreamIterator cancelAt chunks).countP (fun ev => ev.2) ≤ 1 := by
  intro cancelAt chunks
  exact streamIterGo_inv cancelAt chunks 0 utf8Init [] [] rfl

/-- C2 (counterexample): cancellation is signalled right after the
first pull, so the next pull observes it and breaks the read loop —
yet the final flush still parses the non-blank trailing buffer and
yields it while the token is already cancelled: an event is delivered
after cancellation, and not at a line boundary, refuting the claim
that no further events are yielded. -/
theorem claim_C2_counterexample_flush_after_cancel :
    createStreamIterator (some 1) [cps "\x7b\"a\":1\x7d"] =
      [(Json.obj [(cps "a", Json.num 1 0)], true)] := rfl

/-- C10: `parseResponse` never raises the invalid-content-type error:
a content-length of "0" or an absent content-type yields the implicit
success marker, and otherwise the body is JSON-parsed when the
content-type contains "application/json" and returned as raw text
when it does not, so the trailing `OllamaError(400, 'Invalid content
type')` throw is unreachable. -/
theorem claim_C10_invalid_content_type_unreachable :
    ∀ r : HttpResponse,
      FetchClient.parseResponse r ≠ .error (.ollama 400 "Invalid content type") ∧
      ((r.contentLength = some "0" ∨ r.contentType = none) →
        FetchClient.parseResponse r = .ok .marker) ∧
      (∀ ct, r.contentType = some ct → r.contentLength ≠ some "0" →
        (containsSeq (cps "application/json") (cps ct) = true →
          FetchClient.parseResponse r =
            (match jsonParse (cps r.body) with
             | some j => .ok (.json j)
             | none => .error (.otherThrown "Unexpected end of JSON input"))) ∧
        (containsSeq (cps "application/json") (cps ct) = false →
          FetchClient.parseResponse r = .ok (.text r.body))) := by
  intro r
  by_cases hm : r.contentLength = some "0" ∨ r.contentType = none
  · have hpr : FetchClient.parseResponse r = .ok .marker := by
      unfold FetchClient.parseResponse
      rw [if_pos hm]
    refine ⟨by simp [hpr], fun _ => hpr, ?_⟩
    intro ct hct hcl
    cases hm with
    | inl h => exact absurd h hcl
    | inr h => rw [h] at hct; simp at hct
  · push_neg at hm
    obtain ⟨hcl, hctne⟩ := hm
    cases hct : r.contentType with
    | none => exact absurd hct hctne
    | some ct =>
      have hpr : FetchClient.parseResponse r =
          (if containsSeq (cps "application/json") (cps ct) = true then
            (match jsonParse (cps r.body) with
             | some j => .ok (.json j)
             | none => .error (.otherThrown "Unexpected end of JSON input"))
          else .ok (.text r.body)) := by
        unfold FetchClient.parseResponse
        rw [if_neg (by simp [hct, hcl]), hct]
      refine ⟨?_, ?_, ?_⟩
      · rw [hpr]
        split
        · split <;> simp
        · simp
      · intro h
        cases h with
        | inl h => exact absurd h hcl
        | inr h => exact Option.noConfusion h
      · intro ct2 hct2 _
        injection hct2 with he
        subst he
        constructor
        · intro htrue
          rw [hpr, if_pos htrue]
        · intro hfalse
          rw [hpr, if_neg (by simp [hfalse])]

/-- C7: `abort` reports true exactly when a request is active, leaves
no request active afterwards, and a second `abort` in a row therefore
reports false. -/
theorem claim_C7_abort_idempotence :
    ∀ s : ClientState,
      (FetchClient.abort s).1 = FetchClient.isActive s ∧
      FetchClient.isActive (FetchClient.abort s).2 = false ∧
      (FetchClient.abort (FetchClient.abort s).2).1 = false := by
  intro s
  cases h : s.currentController with
  | some c =>
    simp [FetchClient.abort, FetchClient.isActive, FetchClient.cleanupController, h]
  | none =>
    simp [FetchClient.abort, FetchClient.isActive, FetchClient.cleanupController, h]

/-- Witness for C10 at a concrete JSON response. -/
theorem claim_C10_invalid_content_type_unreachable_witness :
    FetchClient.parseResponse ⟨true, 200, "OK", none, some "application/json", "\x7b\x7d"⟩ =
      .ok (.json (Json.obj [])) :=
  ((claim_C10_invalid_content_type_unreachable
      ⟨true, 200, "OK", none, some "application/json", "\x7b\x7d"⟩).2.2
    "application/json" rfl (by simp)).1 rfl

/-- Consumption loop invariant: when the first chunk whose done flag
is set sits at index `i`, the loop returns exactly that chunk. -/
theorem consumeUntilDone_first_done {κ : Type} :
    ∀ (l : List (GenChunk κ)) (last : Option (GenChunk κ)) (i : Nat) (h : i < l.length),
      (l.get ⟨i, h⟩).done = true →
      (∀ j (hj : j < i), (l.get ⟨j, hj.trans h⟩).done = false) →
      consumeUntilDone l last = some (l.get ⟨i, h⟩) := by
  intro l
  induction l with
  | nil => intro last i h; exact absurd h (by simp)
  | cons c rest ih =>
    intro last i h hdone hpre
    cases i with
    | zero =>
      simp only [List.get] at hdone ⊢
      unfold consumeUntilDone
      rw [hdone]
      simp
    | succ i2 =>
      have hc : c.done = false := by
        have := hpre 0 (Nat.succ_pos i2)
        simpa using this
      unfold consumeUntilDone
      rw [hc]
      simp only [Bool.false_eq_true, if_false]
      have hlen : i2 < rest.length := by simpa using h
      have hdone2 : (rest.get ⟨i2, hlen⟩).done = true := by simpa using hdone
      have hpre2 : ∀ j (hj : j < i2), (rest.get ⟨j, hj.trans hlen⟩).done = false := by
        intro j hj
        have := hpre (j + 1) (by omega)
        simpa using this
      have := ih (some c) i2 hlen hdone2 hpre2
      rw [this]
      rfl

/-- C9: the buffered chat and generate calls post to their endpoint
with the caller's payload and the stream field set to false, consume
the stream until the first chunk whose done flag is set and return
that chunk, and raise an error when the stream yields no chunk at
all. -/
theorem claim_C9_buffered_until_done :
    ∀ (π κ : Type) (req : GenRequest π) (chunks : List (GenChunk κ)),
      ((OllamaClient.chat req chunks).1 =
          ("/api/chat", { payload := req.payload, stream := some false }) ∧
       (chunks = [] → (OllamaClient.chat req chunks).2.isOk = false) ∧
       (∀ i (h : i < chunks.length), (chunks.get ⟨i, h⟩).done = true →
          (∀ j (hj : j < i), (chunks.get ⟨j, hj.trans h⟩).done = false) →
          (OllamaClient.chat req chunks).2 = .ok (chunks.get ⟨i, h⟩))) ∧
      ((OllamaClient.generate req chunks).1 =
          ("/api/generate", { payload := req.payload, stream := some false }) ∧
       (chunks = [] → (OllamaClient.generate req chunks).2.isOk = false) ∧
       (∀ i (h : i < chunks.length), (chunks.get ⟨i, h⟩).done = true →
          (∀ j (hj : j < i), (chunks.get ⟨j, hj.trans h⟩).done = false) →
          (OllamaClient.generate req chunks).2 = .ok (chunks.get ⟨i, h⟩))) := by
  intro π κ req chunks
  refine ⟨⟨rfl, ?_, ?_⟩, ⟨rfl, ?_, ?_⟩⟩
  · intro h; subst h; rfl
  · intro i h hdone hpre
    simp only [OllamaClient.chat]
    rw [consumeUntilDone_first_done chunks none i h hdone hpre]
  · intro h; subst h; rfl
  · intro i h hdone hpre
    simp only [OllamaClient.generate]
    rw [consumeUntilDone_first_done chunks none i h hdone hpre]

/-- Witness for C9: a stream whose first done chunk is the second of
three returns exactly that chunk, and an empty stream raises. -/
theorem claim_C9_buffered_until_done_witness :
    (OllamaClient.chat (⟨7, some true⟩ : GenRequest Nat)
        [⟨false, 1⟩, ⟨true, 2⟩, ⟨true, 3⟩]).2 = .ok ⟨true, 2⟩ ∧
    (OllamaClient.generate (⟨7, none⟩ : GenRequest Nat)
        ([] : List (GenChunk Nat))).2.isOk = false :=
  ⟨((claim_C9_buffered_until_done Nat Nat ⟨7, some true⟩
      [⟨false, 1⟩, ⟨true, 2⟩, ⟨true, 3⟩]).1.2.2) 1 (by decide) rfl
     (fun j hj => by
       have hj0 : j = 0 := by omega
       subst hj0
       rfl),
   (claim_C9_buffered_until_done Nat Nat ⟨7, none⟩ []).2.2.1 rfl⟩

/-!
Helper lemmas for the configuration validator.
-/

theorem isValidConfigRetries_isOk_iff (c : OllamaConfig) :
    (isValidConfigRetries c).isOk = true ↔ (∀ r, c.retries = some r → 0 ≤ r) := by
  unfold isValidConfigRetries
  cases hr : c.retries with
  | none => simp [Except.isOk, Except.toBool]
  | some r0 =>
    dsimp only
    by_cases hneg : r0 < 0
    · rw [if_pos hneg]
      simp only [Except.isOk, Except.toBool]
      constructor
      · intro h; exact Bool.noConfusion h
      · intro hR; exact absurd (hR r0 rfl) (by omega)
    · rw [if_neg hneg]
      simp only [Except.isOk, Except.toBool]
      constructor
      · intro _ r hr2
        injection hr2 with he
        omega
      · intro _; trivial

theorem isValidConfigRetries_error_status (c : OllamaConfig) :
    ∀ e, isValidConfigRetries c = .error e → e.status = 400 := by
  intro e
  unfold isValidConfigRetries
  cases hr : c.retries with
  | none => intro h; exact Except.noConfusion h
  | some r0 =>
    dsimp only
    by_cases hneg : r0 < 0
    · rw [if_pos hneg]
      intro h
      injection h with he
      rw [← he]
    · rw [if_neg hneg]
      intro h
      exact Except.noConfusion h

theorem isValidConfig_isOk_iff (c : OllamaConfig) :
    (isValidConfig c).isOk = true ↔
      (c.host ≠ "" ∧ isValidURL c.host = true ∧
       (∀ t, c.timeout = some t → 1000 ≤ t ∧ t ≤ 86400000) ∧
       (∀ r, c.retries = some r → 0 ≤ r)) := by
  unfold isValidConfig
  by_cases hh : c.host = ""
  · rw [if_pos hh]
    simp [Except.isOk, Except.toBool, hh]
  · rw [if_neg hh]
    by_cases hu : isValidURL c.host = false
    · rw [if_pos hu]
      simp [Except.isOk, Except.toBool, hh, hu]
    · rw [if_neg hu]
      have hu2 : isValidURL c.host = true := by
        cases hb : isValidURL c.host with
        | true => rfl
        | false => exact absurd hb hu
      cases ht : c.timeout with
      | none =>
        rw [show ((isValidConfigRetries c).isOk = true) =
          ((∀ r, c.retries = some r → 0 ≤ r) : Prop) from
            propext (isValidConfigRetries_isOk_iff c)]
        simp [hh, hu2]
      | some t0 =>
        dsimp only
        by_cases htr : t0 < 1000 ∨ 86400000 < t0
        · rw [if_pos htr]
          simp only [Except.isOk, Except.toBool]
          constructor
          · intro h; exact Bool.noConfusion h
          · rintro ⟨_, _, h3, _⟩
            have := h3 t0 rfl
            omega
        · rw [if_neg htr]
          push_neg at htr
          rw [show ((isValidConfigRetries c).isOk = true) =
            ((∀ r, c.retries = some r → 0 ≤ r) : Prop) from
              propext (isValidConfigRetries_isOk_iff c)]
          constructor
          · intro h
            refine ⟨hh, hu2, ?_, h⟩
            intro t htt
            injection htt with he
            omega
          · rintro ⟨_, _, _, h4⟩
            exact h4

theorem isValidConfig_error_status (c : OllamaConfig) :
    ∀ e, isValidConfig c = .error e → e.status = 400 := by
  intro e
  unfold isValidConfig
  by_cases hh : c.host = ""
  · rw [if_pos hh]
    intro h
    injection h with he
    rw [← he]
  · rw [if_neg hh]
    by_cases hu : isValidURL c.host = false
    · rw [if_pos hu]
      intro h
      injection h with he
      rw [← he]
    · rw [if_neg hu]
      cases ht : c.timeout with
      | none => exact isValidConfigRetries_error_status c e
      | some t0 =>
        dsimp only
        by_cases htr : t0 < 1000 ∨ 86400000 < t0
        · rw [if_pos htr]
          intro h
          injection h with he
          rw [← he]
        · rw [if_neg htr]
          exact isValidConfigRetries_error_status c e

theorem OllamaService_init_isOk (c : OllamaConfig) :
    (OllamaService.init c).isOk = (isValidConfig c).isOk := by
  unfold OllamaService.init
  cases hv : isValidConfig c with
  | ok b => rfl
  | error e => rfl

theorem OllamaService_init_error (c : OllamaConfig) :
    ∀ e, OllamaService.init c = .error e → isValidConfig c = .error e := by
  intro e
  unfold OllamaService.init
  cases hv : isValidConfig c with
  | ok b => intro h; exact Except.noConfusion h
  | error e2 => intro h; injection h with he; rw [he]

/-- C8 (amended): the validator accepts a timeout only between 1000
and 86400000 milliseconds (the `FetchClient` default being 30000) and
any non-negative retries value (default 1); a malformed configuration
— empty or invalid http/https base URL, out-of-range timeout, or
negative retries — makes the service constructor raise an error with
status 400 before any network activity. -/
theorem claim_C8_amended_config_validation :
    ∀ c : OllamaConfig,
      ((OllamaService.init c).isOk = true ↔
        (c.host ≠ "" ∧ isValidURL c.host = true ∧
         (∀ t, c.timeout = some t → 1000 ≤ t ∧ t ≤ 86400000) ∧
         (∀ r, c.retries = some r → 0 ≤ r))) ∧
      (∀ e, OllamaService.init c = .error e → e.status = 400) ∧
      (FetchClient.mkConfig c).timeout = c.timeout.getD 30000 ∧
      (FetchClient.mkConfig c).retries = c.retries.getD 1 := by
  intro c
  refine ⟨?_, ?_, rfl, rfl⟩
  · rw [OllamaService_init_isOk]
    exact isValidConfig_isOk_iff c
  · intro e he
    exact isValidConfig_error_status c e (OllamaService_init_error c e he)

/-- Witness for C8: a fully in-range configuration is accepted, and a
configuration with an invalid base URL is rejected with status 400. -/
theorem claim_C8_amended_config_validation_witness :
    (OllamaService.init ⟨"http://localhost:11434", some 30000, some 1, none⟩).isOk = true ∧
    (⟨400, "Invalid host URL: must be a valid HTTP/HTTPS URL"⟩ : OllamaErrorS).status = 400 :=
  ⟨(claim_C8_amended_config_validation
      ⟨"http://localhost:11434", some 30000, some 1, none⟩).1.mpr
    ⟨by decide, rfl,
     fun t ht => by injection ht with he; rw [← he]; exact ⟨by decide, by decide⟩,
     fun r hr => by injection hr with he; rw [← he]; decide⟩,
   (claim_C8_amended_config_validation ⟨"notaurl", none, none, none⟩).2.1
     ⟨400, "Invalid host URL: must be a valid HTTP/HTTPS URL"⟩ rfl⟩

/-- C8 (counterexample): 500 is a positive integer, yet the validator
rejects a configuration with timeout 500 — refuting the claim that any
positive integer timeout is accepted (the accepted range starts at
1000). -/
theorem claim_C8_counterexample_timeout_500_rejected :
    (0 : Int) < 500 ∧
    isValidConfig ⟨"http://localhost:11434", some 500, none, none⟩ =
      .error ⟨400,
        "Invalid timeout: must be between 1000 and 86400000 milliseconds (1 second to 1 day)"⟩ :=
  ⟨by decide, rfl⟩

/-!
Helper lemmas for chunk-boundary independence of the line framing.
-/

theorem splitNl_ne_nil (l : List Nat) : splitNl l ≠ [] := by
  cases l with
  | nil => simp [splitNl]
  | cons c cs =>
    simp only [splitNl]
    split
    · simp
    · cases splitNl cs <;> simp [consHead]

theorem getLastD_irrel {α : Type} (l : List α) (h : l ≠ []) (x y : α) :
    l.getLastD x = l.getLastD y := by
  cases l with
  | nil => exact absurd rfl h
  | cons a t => rw [List.getLastD_cons, List.getLastD_cons]

theorem dropLast_append_ne {α : Type} :
    ∀ (A B : List α), B ≠ [] → (A ++ B).dropLast = A ++ B.dropLast := by
  intro A
  induction A with
  | nil => intro B h; rfl
  | cons a A ih =>
    intro B h
    have hne : A ++ B ≠ [] := by
      intro hab
      exact h (List.append_eq_nil.mp hab).2
    rw [List.cons_append, List.dropLast_cons_of_ne_nil hne, ih B h, List.cons_append]

theorem getLastD_append_ne {α : Type} :
    ∀ (A B : List α) (d : α), B ≠ [] → (A ++ B).getLastD d = B.getLastD d := by
  intro A
  induction A with
  | nil => intro B d h; rfl
  | cons a A ih =>
    intro B d h
    rw [List.cons_append, List.getLastD_cons, ih B a h]
    exact getLastD_irrel B h a d

theorem decodeChunk_append (s : Utf8State) :
    ∀ (a b : List Nat),
      decodeChunk s (a ++ b) =
        ((decodeChunk (decodeChunk s a).1 b).1,
         (decodeChunk s a).2 ++ (decodeChunk (decodeChunk s a).1 b).2) := by
  intro a
  induction a generalizing s with
  | nil => intro b; simp [decodeChunk]
  | cons x xs ih =>
    intro b
    simp only [List.cons_append, decodeChunk, List.append_eq]
    rw [ih (utf8Step s x).1 b]
    simp [List.append_assoc]

theorem splitNl_append :
    ∀ (u v : List Nat),
      splitNl (u ++ v) =
        (splitNl u).dropLast ++ splitNl ((splitNl u).getLastD [] ++ v) := by
  intro u
  induction u with
  | nil => intro v; simp [splitNl]
  | cons c u2 ih =>
    intro v
    by_cases hc : c = 10
    · subst hc
      rw [List.cons_append,
        show splitNl (10 :: (u2 ++ v)) = [] :: splitNl (u2 ++ v) from by
          simp [splitNl],
        show splitNl (10 :: u2) = [] :: splitNl u2 from by simp [splitNl],
        List.dropLast_cons_of_ne_nil (splitNl_ne_nil u2),
        List.getLastD_cons, ih v, List.cons_append]
    · rw [List.cons_append,
        show splitNl (c :: (u2 ++ v)) = consHead c (splitNl (u2 ++ v)) from by
          simp [splitNl, hc],
        show splitNl (c :: u2) = consHead c (splitNl u2) from by simp [splitNl, hc],
        ih v]
      cases hS : splitNl u2 with
      | nil => exact absurd hS (splitNl_ne_nil u2)
      | cons s0 S2 =>
        cases hS2 : S2 with
        | nil =>
          simp only [consHead, List.dropLast_single, List.nil_append,
            List.getLastD_cons, List.getLastD_nil]
          rw [show splitNl ((c :: s0) ++ v) = splitNl (c :: (s0 ++ v)) from by
            rw [List.cons_append],
            show splitNl (c :: (s0 ++ v)) = consHead c (splitNl (s0 ++ v)) from by
              simp [splitNl, hc]]
          cases splitNl (s0 ++ v) <;> rfl
        | cons t0 T =>
          have hS2ne : S2 ≠ [] := by rw [hS2]; simp
          rw [← hS2]
          simp only [consHead]
          rw [List.dropLast_cons_of_ne_nil hS2ne,
            List.dropLast_cons_of_ne_nil hS2ne,
            List.getLastD_cons, List.getLastD_cons,
            getLastD_irrel S2 hS2ne (c :: s0) s0]
          simp [consHead]

theorem frameStep_append (st : FramerState) (a b : List Nat) :
    frameStep (frameStep st a) b = frameStep st (a ++ b) := by
  unfold frameStep
  rw [decodeChunk_append st.dec a b]
  dsimp only
  rw [show st.buffer ++ ((decodeChunk st.dec a).2 ++
        (decodeChunk (decodeChunk st.dec a).1 b).2) =
      (st.buffer ++ (decodeChunk st.dec a).2) ++
        (decodeChunk (decodeChunk st.dec a).1 b).2 from by
    rw [List.append_assoc]]
  rw [splitNl_append (st.buffer ++ (decodeChunk st.dec a).2)
    (decodeChunk (decodeChunk st.dec a).1 b).2]
  have hQ := splitNl_ne_nil
    ((splitNl (st.buffer ++ (decodeChunk st.dec a).2)).getLastD [] ++
      (decodeChunk (decodeChunk st.dec a).1 b).2)
  rw [getLastD_append_ne _ _ _ hQ, dropLast_append_ne _ _ hQ, List.append_assoc]

theorem frame_foldl_join :
    ∀ (chunks : List (List Nat)), chunks ≠ [] → ∀ (st : FramerState),
      chunks.foldl frameStep st = frameStep st chunks.flatten := by
  intro chunks
  induction chunks with
  | nil => intro h; exact absurd rfl h
  | cons c rest ih =>
    intro _ st
    by_cases hr : rest = []
    · subst hr
      simp [frameStep]
    · rw [List.foldl_cons, ih hr (frameStep st c), frameStep_append,
        List.flatten_cons]

theorem LineFramer_frame_join (cs : List (List Nat)) :
    LineFramer.frame cs = LineFramer.frame [cs.flatten] := by
  unfold LineFramer.frame
  by_cases h : cs = []
  · subst h; rfl
  · rw [frame_foldl_join cs h]
    rfl

/-- C4: for every total byte sequence and every way of splitting it
into chunks — including splitting a multi-byte UTF-8 character across
a chunk boundary — the line framing yields the identical ordered list
of lines: the segments of the decoded text in the order their
terminating newline appeared, followed by a final flush of the
non-blank trimmed trailing buffer at stream end. -/
theorem claim_C4_chunk_boundary_independence :
    (∀ (cs ds : List (List Nat)), cs.flatten = ds.flatten →
       LineFramer.frame cs = LineFramer.frame ds) ∧
    (∀ cs : List (List Nat),
       LineFramer.frame cs =
         (if trimWs ((splitNl (decodeChunk utf8Init cs.flatten).2).getLastD []) = [] then
            (splitNl (decodeChunk utf8Init cs.flatten).2).dropLast
          else
            (splitNl (decodeChunk utf8Init cs.flatten).2).dropLast ++
              [trimWs ((splitNl (decodeChunk utf8Init cs.flatten).2).getLastD [])])) := by
  constructor
  · intro cs ds h
    rw [LineFramer_frame_join cs, LineFramer_frame_join ds, h]
  · intro cs
    rw [LineFramer_frame_join cs]
    rfl

/-- Witness for C4: the two-byte character U+00E9 split across a
chunk boundary yields the same single line as the unsplit chunking. -/
theorem claim_C4_chunk_boundary_independence_witness :
    ([[0xC3], [0xA9, 10]] : List (List Nat)).flatten = [[0xC3, 0xA9], [10]].flatten ∧
    LineFramer.frame [[0xC3], [0xA9, 10]] = LineFramer.frame [[0xC3, 0xA9], [10]] :=
  ⟨by decide,
   claim_C4_chunk_boundary_independence.1 [[0xC3], [0xA9, 10]] [[0xC3, 0xA9], [10]]
     (by decide)⟩
